import Mathlib

/-!
Verification development for the figma relay endpoint: an HTTP handler that
authorizes a relay caller, validates query parameters, serves from a
process-wide TTL cache, fetches a design file and selected node details from
the upstream API, and composes a response payload.

The definitions below are a shallow embedding of the JavaScript handler
module (in-memory cache, pickTopScreens, and the exported handler). The two
upstream fetch results are passed in as oracle values, and Date.now() is
passed in as a single instant per request. The handler returns its HTTP
status, the response body, the updated cache, and how many upstream file and
node fetches it performed.
-/

namespace FigmaRelay

/-- Truthiness of an optional string, as JavaScript sees env values and query
parameters: undefined and the empty string are falsy. -/
def jsTruthy : Option String → Bool
  | none => false
  | some s => !(s == "")

/-- Model of the JavaScript expression (x || d) for an optional string x:
yields d when x is undefined or empty, else x. -/
def jsOr : Option String → String → String
  | none, d => d
  | some s, d => if s == "" then d else s

/-- Numeric value of a list of decimal digits, most significant first. -/
def digitsVal (ds : List Char) : Nat :=
  ds.foldl (fun a c => a * 10 + (c.toNat - 48)) 0

/-- Model of JavaScript parseInt(s, 10): skip leading whitespace, read an
optional sign, then the longest prefix of decimal digits; the result none
models NaN (no digits found). -/
def jsParseInt (s : String) : Option Int :=
  let cs := s.data.dropWhile (fun c => c == ' ' || c == '\t' || c == '\n' || c == '\r')
  let signed : Int × List Char :=
    match cs with
    | '-' :: rest => (-1, rest)
    | '+' :: rest => (1, rest)
    | _ => (1, cs)
  let ds := signed.2.takeWhile Char.isDigit
  if ds.isEmpty then none else some (signed.1 * (digitsVal ds : Int))

/-- Model of Math.max(x, b) where x may be NaN (none): NaN propagates. -/
def jsMax : Option Int → Int → Option Int
  | none, _ => none
  | some a, b => some (max a b)

/-- Model of Math.min(x, b) where x may be NaN (none): NaN propagates. -/
def jsMin : Option Int → Int → Option Int
  | none, _ => none
  | some a, b => some (min a b)

/-- Template literal rendering of a possibly-NaN number. -/
def jsNumStr : Option Int → String
  | none => "NaN"
  | some n => toString n

/-- A screen entry, as pushed by pickTopScreens: an id and name pair. -/
structure Screen where
  id : String
  name : String
deriving DecidableEq

/-- Opaque node detail data, as returned by the nodes endpoint. -/
abbrev NodeDetail := String

/-- The nodes mapping of the response: node id to detail, in object order. -/
abbrev NodesMap := List (String × NodeDetail)

/-- A node of the fetched document tree. Each field may be absent, as in the
untyped JSON the handler walks; children is absent-or-list, matching the
source guard (page.children || []). -/
inductive FNode where
  | node (type : Option String) (id : String) (name : String)
      (children : Option (List FNode))

def FNode.type : FNode → Option String
  | .node t _ _ _ => t

def FNode.id : FNode → String
  | .node _ i _ _ => i

def FNode.name : FNode → String
  | .node _ _ n _ => n

def FNode.children : FNode → Option (List FNode)
  | .node _ _ _ c => c

/-- The parsed file metadata JSON: the handler reads document, name and
lastModified, each possibly absent. -/
structure FileJson where
  document : Option FNode
  name : Option String
  lastModified : Option String

/-- Direct children of the document root: fileJson?.document?.children || []. -/
def pagesOf (fj : FileJson) : List FNode :=
  match fj.document with
  | none => []
  | some d => d.children.getD []

/-- Test performed on each child node by the source:
["FRAME", "SECTION"].includes(node?.type); undefined never matches. -/
def isScreenType : Option String → Bool
  | some s => s == "FRAME" || s == "SECTION"
  | none => false

/-- Model of the comparison screens.length >= limit where limit may be NaN
(none): every comparison with NaN is false. -/
def lenGE (len : Nat) : Option Int → Bool
  | none => false
  | some l => decide ((len : Int) ≥ l)

/-- Inner loop of pickTopScreens over the direct children of one canvas:
pushes qualifying nodes onto the accumulator and reports true when the
length check triggered the early return of the whole function. -/
def pickNodes (limit : Option Int) (acc : List Screen) :
    List FNode → List Screen × Bool
  | [] => (acc, false)
  | n :: rest =>
    if isScreenType n.type then
      let acc2 := acc ++ [⟨n.id, n.name⟩]
      if lenGE acc2.length limit then (acc2, true)
      else pickNodes limit acc2 rest
    else pickNodes limit acc rest

/-- Outer loop of pickTopScreens over the direct children of the root:
skips non-canvas pages and stops everything once the inner loop reported
the early return. -/
def pickPages (limit : Option Int) (acc : List Screen) :
    List FNode → List Screen
  | [] => acc
  | p :: rest =>
    if p.type == some "CANVAS" then
      let r := pickNodes limit acc (p.children.getD [])
      if r.2 then r.1 else pickPages limit r.1 rest
    else pickPages limit acc rest

/-- Embedding of pickTopScreens(fileJson, limit) from the source. -/
def pickTopScreens (fj : FileJson) (limit : Option Int) : List Screen :=
  pickPages limit [] (pagesOf fj)

/-- The response payload composed on the success path and stored in the
cache; its fields are exactly file_key, file_name, last_modified, screens
and nodes. -/
structure Payload where
  file_key : String
  file_name : String
  last_modified : String
  screens : List Screen
  nodes : NodesMap
deriving DecidableEq

/-- One cache entry: the Date.now() timestamp at store time and the value. -/
structure CacheEntry where
  ts : Nat
  value : Payload
deriving DecidableEq

/-- The process-wide Map, kept in insertion order as JavaScript Map is. -/
abbrev Cache := List (String × CacheEntry)

/-- Map.get by exact key. -/
def mapGet (c : Cache) (k : String) : Option CacheEntry :=
  (c.find? (fun kv => kv.1 == k)).map (fun kv => kv.2)

/-- Map.set: replaces the entry in place when the key is present, keeping its
position, else appends at the end. -/
def mapSet (c : Cache) (k : String) (v : CacheEntry) : Cache :=
  if c.any (fun kv => kv.1 == k) then
    c.map (fun kv => if kv.1 == k then (k, v) else kv)
  else c ++ [(k, v)]

/-- Map.delete by exact key. -/
def mapDelete (c : Cache) (k : String) : Cache :=
  c.filter (fun kv => !(kv.1 == k))

/-- Ten minutes, the TTL_MS constant of the source. -/
def TTL_MS : Nat := 10 * 60 * 1000

/-- Embedding of getCache(key): returns the stored value only when the entry
exists and its age is at most TTL_MS; an expired entry is deleted and
treated as absent. The updated Map is returned alongside. -/
def getCache (c : Cache) (key : String) (now : Nat) : Option Payload × Cache :=
  match mapGet c key with
  | none => (none, c)
  | some item =>
    if now - item.ts > TTL_MS then (none, mapDelete c key)
    else (some item.value, c)

/-- Embedding of setCache(key, value): stores the value with the current
timestamp, overwriting any prior entry for the key. -/
def setCache (c : Cache) (key : String) (value : Payload) (now : Nat) : Cache :=
  mapSet c key ⟨now, value⟩

/-- Model of String.prototype.startsWith: the second string is a prefix of
the first, compared character by character. -/
def jsStartsWith (s p : String) : Bool :=
  p.data.isPrefixOf s.data

/-- Rate limit fallback scan of the handler: the first cache entry, in Map
iteration order, whose key starts with fileKey followed by a bar and whose
age is within TTL_MS. -/
def scanFallback (c : Cache) (fileKey : String) (now : Nat) : Option Payload :=
  (c.find? (fun kv =>
    jsStartsWith kv.1 (fileKey ++ "|") && decide (now - kv.2.ts ≤ TTL_MS))).map
    (fun kv => kv.2.value)

/-- Server configuration read from process.env: the relay secret and the
upstream token, each possibly unset. -/
structure Env where
  relayKey : Option String
  figmaPat : Option String

/-- The inbound request: method, the X-Relay-Key header, and the three query
parameters, each possibly absent. -/
structure Req where
  method : String
  xRelayKey : Option String
  file_key : Option String
  depth : Option String
  limit : Option String

/-- Result of fetchJson for the file metadata call: the HTTP status, the
parsed JSON body when the response was JSON and parsed (else none), and the
text body otherwise. The ok flag of fetch is status in 200..299 and is
derived by respOk. -/
structure FileFetchResult where
  status : Nat
  json : Option FileJson
  text : String

/-- The parsed nodes endpoint JSON: the handler only reads its nodes field,
possibly absent. -/
structure NodesJson where
  nodes : Option NodesMap

/-- Result of fetchJson for the node detail call. -/
structure NodesFetchResult where
  status : Nat
  json : Option NodesJson

/-- The ok flag of a fetch Response: status in the 2xx range. -/
def respOk (status : Nat) : Bool :=
  decide (200 ≤ status) && decide (status ≤ 299)

/-- The figma_body field of the upstream failure response:
fileRes.json || fileRes.text || null. -/
inductive FigmaBody where
  | jsonBody (fj : FileJson)
  | textBody (t : String)
  | nullBody

def figmaBodyOf (fr : FileFetchResult) : FigmaBody :=
  match fr.json with
  | some fj => .jsonBody fj
  | none => if fr.text == "" then .nullBody else .textBody fr.text

/-- The JSON body of a handler response: either an error object or the
payload spread together with the _cache marker. A success body carries
exactly the five payload fields plus _cache. -/
inductive Body where
  | err (msg : String)
  | errFigma (msg : String) (figmaStatus : Nat) (figmaBody : FigmaBody)
  | success (payload : Payload) (cacheMark : String)

/-- What one handler invocation produced: HTTP status, body, the cache after
the invocation, and how many upstream file and node fetches were performed. -/
structure HandlerResult where
  status : Nat
  body : Body
  cache : Cache
  fileFetches : Nat
  nodeFetches : Nat

/-- The authorization guard of the handler:
!process.env.RELAY_KEY || relayKey !== process.env.RELAY_KEY. -/
def authFail (env : Env) (req : Req) : Bool :=
  !(jsTruthy env.relayKey) || !(req.xRelayKey == env.relayKey)

/-- The depth parameter after defaulting: String(req.query.depth || "1"). -/
def depthOf (req : Req) : String :=
  jsOr req.depth "1"

/-- The effective limit:
Math.min(Math.max(parseInt(req.query.limit || "10", 10), 1), 25); none
models NaN for a non-numeric parameter. -/
def effectiveLimit (q : Option String) : Option Int :=
  jsMin (jsMax (jsParseInt (jsOr q "10")) 1) 25

/-- The composite cache key: fileKey|d=depth|l=limit. -/
def ckeyOf (fileKey depth : String) (limit : Option Int) : String :=
  fileKey ++ "|d=" ++ depth ++ "|l=" ++ jsNumStr limit

/-- The depth validation of the handler: ["1", "2", "3"].includes(depth). -/
def depthValid (depth : String) : Bool :=
  (["1", "2", "3"] : List String).contains depth

/-- The file key once validated: req.query.file_key, known truthy. -/
def fkOf (req : Req) : String :=
  req.file_key.getD ""

/-- The cache key the handler computes for a request. -/
def reqCkey (req : Req) : String :=
  ckeyOf (fkOf req) (depthOf req) (effectiveLimit req.limit)

/-- The comma joined id list of the selected screens:
screens.map(s => s.id).join(","). -/
def idsOf (screens : List Screen) : String :=
  String.intercalate "," (screens.map (fun s => s.id))

/-- Step 3 of the handler: fetch nodes for the selected screens, skipped
when the joined id list is empty; a 429 or any failed or unparsable nodes
response degrades to an empty mapping. Returns the nodes and how many node
fetches happened. -/
def fetchNodes (ids : String) (nr : NodesFetchResult) : NodesMap × Nat :=
  if ids == "" then ([], 0)
  else if nr.status == 429 then ([], 1)
  else
    match nr.json with
    | some nj => if respOk nr.status then (nj.nodes.getD [], 1) else ([], 1)
    | none => ([], 1)

/-- The tail of the handler once the file fetch succeeded with parsed JSON:
pick screens, fetch nodes, compose the payload, store it, respond 200 with
the miss_set marker. -/
def successPath (fileKey : String) (limit : Option Int) (ckey : String)
    (c : Cache) (now : Nat) (fj : FileJson) (nr : NodesFetchResult) :
    HandlerResult :=
  let screens := pickTopScreens fj limit
  let ids := idsOf screens
  let fetched := fetchNodes ids nr
  let payload : Payload :=
    ⟨fileKey, jsOr fj.name "", jsOr fj.lastModified "", screens, fetched.1⟩
  ⟨200, .success payload "miss_set", setCache c ckey payload now, 1, fetched.2⟩

/-- The handler from the cache miss on: the file fetch happened, so classify
it: 429 goes to the fallback scan, other failures or unparsable bodies
return the upstream failure response, success proceeds to the success path. -/
def handleMiss (fileKey : String) (limit : Option Int) (ckey : String)
    (c : Cache) (now : Nat) (fr : FileFetchResult) (nr : NodesFetchResult) :
    HandlerResult :=
  if fr.status == 429 then
    match scanFallback c fileKey now with
    | some v => ⟨200, .success v "fallback_on_429", c, 1, 0⟩
    | none =>
      ⟨429,
        .err "Figma rate limited (429) and no cache available yet. Retry in a few minutes.",
        c, 1, 0⟩
  else
    match fr.json with
    | none =>
      ⟨if fr.status == 0 then 502 else fr.status,
        .errFigma "Figma file fetch failed" fr.status (figmaBodyOf fr), c, 1, 0⟩
    | some fj =>
      if respOk fr.status then successPath fileKey limit ckey c now fj nr
      else
        ⟨if fr.status == 0 then 502 else fr.status,
          .errFigma "Figma file fetch failed" fr.status (figmaBodyOf fr), c, 1, 0⟩

/-- Embedding of the exported handler. The two fetch results stand for what
the upstream would answer if called; the fileFetches and nodeFetches counts
record whether the handler actually performed each call. -/
def handler (env : Env) (req : Req) (c : Cache) (now : Nat)
    (fr : FileFetchResult) (nr : NodesFetchResult) : HandlerResult :=
  if !(req.method == "GET") then ⟨405, .err "Method not allowed", c, 0, 0⟩
  else if authFail env req then ⟨401, .err "Unauthorized", c, 0, 0⟩
  else
    let depth := depthOf req
    let limit := effectiveLimit req.limit
    if !(jsTruthy req.file_key) then ⟨400, .err "Missing file_key", c, 0, 0⟩
    else if !(depthValid depth) then ⟨400, .err "depth must be 1,2,3", c, 0, 0⟩
    else if !(jsTruthy env.figmaPat) then
      ⟨500, .err "Server misconfigured: FIGMA_PAT missing", c, 0, 0⟩
    else
      let fileKey := req.file_key.getD ""
      let ckey := ckeyOf fileKey depth limit
      match getCache c ckey now with
      | (some p, c1) => ⟨200, .success p "hit", c1, 0, 0⟩
      | (none, c1) => handleMiss fileKey limit ckey c1 now fr nr

/-! Helper lemmas about the cache Map model. -/

theorem find?_replace (c : Cache) (k : String) (v : CacheEntry)
    (h : c.any (fun kv => kv.1 == k) = true) :
    List.find? (fun kv => kv.1 == k)
      (c.map (fun kv => if kv.1 == k then (k, v) else kv)) = some (k, v) := by
  induction c with
  | nil => simp at h
  | cons a rest ih =>
    simp only [List.any_cons, Bool.or_eq_true] at h
    by_cases ha : (a.1 == k) = true
    · rw [List.map_cons, if_pos ha, List.find?_cons]
      have hk : ((k, v).1 == k) = true := by simp
      rw [hk]
    · rcases h with h | h
      · exact absurd h ha
      · rw [List.map_cons, if_neg ha, List.find?_cons]
        have hfalse : (a.1 == k) = false := by simpa using ha
        rw [hfalse]
        exact ih h

theorem mapGet_mapSet_self (c : Cache) (k : String) (v : CacheEntry) :
    mapGet (mapSet c k v) k = some v := by
  unfold mapGet mapSet
  by_cases h : c.any (fun kv => kv.1 == k) = true
  · rw [if_pos h, find?_replace c k v h]
    rfl
  · rw [if_neg h, List.find?_append]
    have hnone : List.find? (fun kv => kv.1 == k) c = none := by
      rw [List.find?_eq_none]
      intro x hx hpx
      exact h (List.any_eq_true.mpr ⟨x, hx, hpx⟩)
    simp [hnone]

theorem handleMiss_fileFetches (fk : String) (limit : Option Int) (ckey : String)
    (c : Cache) (now : Nat) (fr : FileFetchResult) (nr : NodesFetchResult) :
    (handleMiss fk limit ckey c now fr nr).fileFetches = 1 := by
  unfold handleMiss
  split
  · split <;> rfl
  · split
    · rfl
    · split <;> rfl

theorem handler_eq_of_valid (env : Env) (req : Req) (c : Cache) (now : Nat)
    (fr : FileFetchResult) (nr : NodesFetchResult)
    (hm : req.method = "GET") (ha : authFail env req = false)
    (hfk : jsTruthy req.file_key = true)
    (hd : depthValid (depthOf req) = true)
    (hp : jsTruthy env.figmaPat = true) :
    handler env req c now fr nr =
      (match getCache c (reqCkey req) now with
        | (some p, c1) => ⟨200, .success p "hit", c1, 0, 0⟩
        | (none, c1) => handleMiss (fkOf req) (effectiveLimit req.limit)
            (reqCkey req) c1 now fr nr) := by
  unfold handler reqCkey fkOf
  simp [hm, ha, hfk, hd, hp]

/-- C7: the cache get operation returns the stored payload exactly when an
entry exists for that exact key and its age is at most the TTL of ten
minutes; consequently a request issued after the TTL elapsed performs a
fresh upstream file fetch even though an older entry exists for its key. -/
theorem C7_getCache_ttl :
    (∀ (c : Cache) (key : String) (now : Nat) (v : Payload),
      (getCache c key now).1 = some v ↔
        ∃ e, mapGet c key = some e ∧ now - e.ts ≤ TTL_MS ∧ e.value = v) ∧
    (∀ (env : Env) (req : Req) (c : Cache) (now : Nat) (fr : FileFetchResult)
        (nr : NodesFetchResult) (e : CacheEntry),
      req.method = "GET" → authFail env req = false →
      jsTruthy req.file_key = true → depthValid (depthOf req) = true →
      jsTruthy env.figmaPat = true →
      mapGet c (reqCkey req) = some e →
      now - e.ts > TTL_MS →
      (handler env req c now fr nr).fileFetches = 1) := by
  constructor
  · intro c key now v
    unfold getCache
    constructor
    · intro hv
      cases h : mapGet c key with
      | none =>
        simp only [h] at hv
        simp at hv
      | some e =>
        simp only [h] at hv
        by_cases ht : now - e.ts > TTL_MS
        · rw [if_pos ht] at hv
          simp at hv
        · rw [if_neg ht] at hv
          have hv2 : e.value = v := by simpa using hv
          exact ⟨e, rfl, by omega, hv2⟩
    · rintro ⟨e, he, hle, hval⟩
      simp only [he]
      rw [if_neg (by omega : ¬ now - e.ts > TTL_MS)]
      simp [hval]
  · intro env req c now fr nr e hm ha hfk hd hp hget ht
    rw [handler_eq_of_valid env req c now fr nr hm ha hfk hd hp]
    have hg : getCache c (reqCkey req) now =
        (none, mapDelete c (reqCkey req)) := by
      unfold getCache
      rw [hget]
      simp [ht]
    rw [hg]
    exact handleMiss_fileFetches _ _ _ _ _ _ _

/-! Concrete objects used by witnesses. -/

def envW : Env := ⟨some "relay-secret", some "pat-token"⟩

def reqW : Req := ⟨"GET", some "relay-secret", some "fileA", none, none⟩

def fjW : FileJson := ⟨none, some "DocA", some "2024-01-01"⟩

def pW : Payload := ⟨"fileA", "DocA", "2024-01-01", [], []⟩

def frOkW : FileFetchResult := ⟨200, some fjW, ""⟩

def nrW : NodesFetchResult := ⟨200, none⟩

def cW : Cache := [("fileA|d=1|l=10", ⟨0, pW⟩)]

/-- Witness for C7: a fresh entry is served at age five milliseconds, and a
request at age TTL plus one performs the upstream file fetch. -/
theorem C7_getCache_ttl_witness :
    (getCache cW "fileA|d=1|l=10" 5).1 = some pW ∧
    (handler envW reqW cW 600001 frOkW nrW).fileFetches = 1 := by
  constructor
  · exact (C7_getCache_ttl.1 cW "fileA|d=1|l=10" 5 pW).mpr
      ⟨⟨0, pW⟩, by decide, by decide, rfl⟩
  · exact C7_getCache_ttl.2 envW reqW cW 600001 frOkW nrW ⟨0, pW⟩
      rfl (by decide) (by decide) (by decide) (by decide) (by decide) (by decide)

/-! Screen selector: spec side description and refinement lemmas. -/

/-- Screens contributed by the direct children of one canvas, in tree order:
the qualifying frame or section children mapped to id and name pairs. -/
def nodeScreens (ns : List FNode) : List Screen :=
  (ns.filter (fun n => isScreenType n.type)).map
    (fun n => (⟨n.id, n.name⟩ : Screen))

/-- Modelled from the spec words for the screen selector: walk the direct
children of the root that are canvas containers and, within each, its direct
frame or section children, in tree order. The selector result is then this
list truncated at the limit. -/
def flatScreens (ps : List FNode) : List Screen :=
  ((ps.filter (fun p => p.type == some "CANVAS")).map
    (fun p => nodeScreens (p.children.getD []))).flatten

theorem flatScreens_cons (p : FNode) (rest : List FNode) :
    flatScreens (p :: rest) =
      (if (p.type == some "CANVAS") = true
        then nodeScreens (p.children.getD []) else []) ++ flatScreens rest := by
  unfold flatScreens
  by_cases hc : (p.type == some "CANVAS") = true <;>
    simp [hc, List.filter_cons]

theorem pickNodes_eq (l : Int) (ns : List FNode) :
    ∀ acc : List Screen, acc.length < l.toNat →
      pickNodes (some l) acc ns =
        ((acc ++ nodeScreens ns).take l.toNat,
          decide (l.toNat ≤ (acc ++ nodeScreens ns).length)) := by
  induction ns with
  | nil =>
    intro acc hacc
    simp only [pickNodes, nodeScreens, List.filter_nil, List.map_nil,
      List.append_nil]
    rw [List.take_of_length_le (Nat.le_of_lt hacc),
      decide_eq_false (by omega : ¬ l.toNat ≤ acc.length)]
  | cons n rest ih =>
    intro acc hacc
    by_cases hq : isScreenType n.type = true
    · have hns : nodeScreens (n :: rest) =
          (⟨n.id, n.name⟩ : Screen) :: nodeScreens rest := by
        simp [nodeScreens, List.filter_cons, hq]
      rw [hns]
      have hassoc : acc ++ ((⟨n.id, n.name⟩ : Screen) :: nodeScreens rest) =
          (acc ++ [(⟨n.id, n.name⟩ : Screen)]) ++ nodeScreens rest := by
        simp
      rw [hassoc]
      simp only [pickNodes, hq, if_true]
      by_cases hge : lenGE (acc ++ [(⟨n.id, n.name⟩ : Screen)]).length (some l) = true
      · rw [if_pos hge]
        have hInt : ((acc ++ [(⟨n.id, n.name⟩ : Screen)]).length : Int) ≥ l := by
          simpa [lenGE] using hge
        have hLeq : (acc ++ [(⟨n.id, n.name⟩ : Screen)]).length = l.toNat := by
          simp only [List.length_append, List.length_singleton] at hInt hacc ⊢
          omega
        rw [← hLeq, List.take_left,
          decide_eq_true (by simp only [List.length_append]; omega :
            (acc ++ [(⟨n.id, n.name⟩ : Screen)]).length ≤
              ((acc ++ [(⟨n.id, n.name⟩ : Screen)]) ++ nodeScreens rest).length)]
      · rw [if_neg hge]
        have hInt : ¬ ((acc ++ [(⟨n.id, n.name⟩ : Screen)]).length : Int) ≥ l := by
          simpa [lenGE] using hge
        have hlt : (acc ++ [(⟨n.id, n.name⟩ : Screen)]).length < l.toNat := by
          simp only [List.length_append, List.length_singleton] at hInt hacc ⊢
          omega
        exact ih _ hlt
    · have hns : nodeScreens (n :: rest) = nodeScreens rest := by
        simp [nodeScreens, List.filter_cons, hq]
      rw [hns]
      simp only [pickNodes, hq, if_false, Bool.false_eq_true]
      exact ih acc hacc

theorem pickPages_eq (l : Int) (ps : List FNode) :
    ∀ acc : List Screen, acc.length < l.toNat →
      pickPages (some l) acc ps = (acc ++ flatScreens ps).take l.toNat := by
  induction ps with
  | nil =>
    intro acc hacc
    simp only [pickPages, flatScreens, List.filter_nil, List.map_nil,
      List.flatten_nil, List.append_nil]
    exact (List.take_of_length_le (Nat.le_of_lt hacc)).symm
  | cons p rest ih =>
    intro acc hacc
    rw [flatScreens_cons]
    by_cases hc : (p.type == some "CANVAS") = true
    · rw [if_pos hc]
      simp only [pickPages, hc, if_true]
      rw [pickNodes_eq l _ acc hacc]
      have hassoc : acc ++ (nodeScreens (p.children.getD []) ++ flatScreens rest) =
          (acc ++ nodeScreens (p.children.getD [])) ++ flatScreens rest :=
        (List.append_assoc _ _ _).symm
      rw [hassoc]
      by_cases hge : l.toNat ≤ (acc ++ nodeScreens (p.children.getD [])).length
      · rw [decide_eq_true hge]
        simp only [if_true]
        exact (List.take_append_of_le_length hge).symm
      · rw [decide_eq_false hge]
        simp only [if_false, Bool.false_eq_true]
        have hlt : (acc ++ nodeScreens (p.children.getD [])).length < l.toNat := by
          omega
        rw [List.take_of_length_le (Nat.le_of_lt hlt), ih _ hlt,
          List.append_assoc]
    · rw [if_neg hc]
      simp only [pickPages, hc, if_false, Bool.false_eq_true, List.nil_append]
      exact ih acc hacc

/-- The document tree of the spec example: two canvases, the first with three
frames and one non frame node, the second with two sections. -/
def exampleDoc : FileJson :=
  ⟨some (.node (some "DOCUMENT") "0:0" "Document" (some [
    .node (some "CANVAS") "c1" "Canvas 1" (some [
      .node (some "FRAME") "f1" "F1" none,
      .node (some "TEXT") "t1" "T1" none,
      .node (some "FRAME") "f2" "F2" none,
      .node (some "FRAME") "f3" "F3" none]),
    .node (some "CANVAS") "c2" "Canvas 2" (some [
      .node (some "SECTION") "s1" "S1" none,
      .node (some "SECTION") "s2" "S2" none])])),
  some "Doc", some "2024"⟩

/-- C5: for every document tree and every limit of at least one, the screen
selector equals the spec description: the canvas-only, frame-or-section-only
flattening of the first two tree levels, in tree order, truncated at the
limit; a tree without canvas pages yields the empty list; and on the spec
example with limit four the result is the three frames of canvas one
followed by the first section of canvas two. -/
theorem C5_screen_selector :
    (∀ (fj : FileJson) (l : Int), 1 ≤ l →
      pickTopScreens fj (some l) = (flatScreens (pagesOf fj)).take l.toNat) ∧
    (∀ (fj : FileJson) (l : Int), 1 ≤ l →
      (∀ p ∈ pagesOf fj, ¬ p.type = some "CANVAS") →
      pickTopScreens fj (some l) = []) ∧
    pickTopScreens exampleDoc (some 4) =
      [⟨"f1", "F1"⟩, ⟨"f2", "F2"⟩, ⟨"f3", "F3"⟩, ⟨"s1", "S1"⟩] := by
  have hmain : ∀ (fj : FileJson) (l : Int), 1 ≤ l →
      pickTopScreens fj (some l) = (flatScreens (pagesOf fj)).take l.toNat := by
    intro fj l hl
    unfold pickTopScreens
    rw [pickPages_eq l (pagesOf fj) [] (by simp; omega)]
    simp
  refine ⟨hmain, ?_, by decide⟩
  intro fj l hl hnone
  rw [hmain fj l hl]
  have hfilter : (pagesOf fj).filter (fun p => p.type == some "CANVAS") = [] := by
    rw [List.filter_eq_nil_iff]
    intro p hp
    simpa using hnone p hp
  simp [flatScreens, hfilter]

/-- Witness for C5: the refinement applied to the spec example at limit two. -/
theorem C5_screen_selector_witness :
    1 ≤ (2 : Int) ∧
    pickTopScreens exampleDoc (some 2) =
      (flatScreens (pagesOf exampleDoc)).take (2 : Int).toNat :=
  ⟨by decide, C5_screen_selector.1 exampleDoc 2 (by decide)⟩

/-- C1: under a GET request, whenever the configured relay secret is absent
or empty, or the X-Relay-Key header is missing or differs from it, the
handler responds 401, leaves the cache alone and performs no upstream
fetch; and a 401 with no file fetch happens exactly in that case, so
authorization succeeds only if a configured secret exists and the two
values match exactly. -/
theorem C1_auth_gate (env : Env) (req : Req) (c : Cache) (now : Nat)
    (fr : FileFetchResult) (nr : NodesFetchResult)
    (hm : req.method = "GET") :
    (¬ (jsTruthy env.relayKey = true ∧ req.xRelayKey = env.relayKey) →
      (handler env req c now fr nr).status = 401 ∧
      (handler env req c now fr nr).fileFetches = 0 ∧
      (handler env req c now fr nr).nodeFetches = 0 ∧
      (handler env req c now fr nr).cache = c) ∧
    ((handler env req c now fr nr).status = 401 ∧
      (handler env req c now fr nr).fileFetches = 0 →
      ¬ (jsTruthy env.relayKey = true ∧ req.xRelayKey = env.relayKey)) := by
  have hauth : authFail env req = false ↔
      (jsTruthy env.relayKey = true ∧ req.xRelayKey = env.relayKey) := by
    unfold authFail
    constructor
    · intro h
      simp only [Bool.or_eq_false_iff, Bool.not_eq_false'] at h
      exact ⟨h.1, by have := h.2; simpa using this⟩
    · rintro ⟨h1, h2⟩
      simp [h1, h2]
  constructor
  · intro hno
    have ha : authFail env req = true := by
      cases hb : authFail env req
      · exact absurd (hauth.mp hb) hno
      · rfl
    unfold handler
    simp [hm, ha]
  · rintro ⟨h1, h2⟩ hyes
    have ha : authFail env req = false := hauth.mpr hyes
    unfold handler at h1 h2
    simp only [hm, ha, beq_self_eq_true, Bool.not_true, Bool.false_eq_true,
      if_false, Bool.not_false, if_true] at h1 h2
    split at h1 <;> simp_all
    split at h1 <;> simp_all
    split at h1 <;> simp_all
    split at h1
    · simp_all
    · rename_i x c1 heq
      simp only [heq] at h2
      rw [handleMiss_fileFetches] at h2
      exact absurd h2 one_ne_zero

/-- Witness for C1: a GET request with a wrong relay key gets a 401. -/
theorem C1_auth_gate_witness :
    (handler envW ⟨"GET", some "wrong-key", some "fileA", none, none⟩ [] 0
      frOkW nrW).status = 401 :=
  ((C1_auth_gate envW ⟨"GET", some "wrong-key", some "fileA", none, none⟩ [] 0
    frOkW nrW rfl).1 (by decide)).1

/-! C2: the effective limit. -/

/-- A canvas holding twenty six frames, used to exhibit the unbounded
selection under a NaN limit. -/
def bigDoc : FileJson :=
  ⟨some (.node (some "DOCUMENT") "0" "D" (some [
    .node (some "CANVAS") "c" "C"
      (some ((List.range 26).map
        (fun i => .node (some "FRAME") (toString i) (toString i) none)))])),
  none, none⟩

/-- Counterexample to C2: a non numeric limit parameter parses to NaN, so
the effective limit is NaN rather than any clamp into one to twenty five,
and screen selection under it returns twenty six screens, more than the
claimed maximum of twenty five. -/
theorem C2_counterexample :
    effectiveLimit (some "abc") = none ∧
    (pickTopScreens bigDoc (effectiveLimit (some "abc"))).length = 26 := by
  exact ⟨by decide, by decide⟩

/-- C2 amended: when the limit parameter is absent or numeric, the effective
limit is the clamp of the parsed integer into one to twenty five, with
default ten when absent, and clamping is silent; when the parameter is non
numeric, parseInt yields NaN, the effective limit is NaN, and the length
check of the selector is then always false, so selection is not capped. -/
theorem C2_effective_limit (q : Option String) :
    (∀ n : Int, jsParseInt (jsOr q "10") = some n →
      effectiveLimit q = some (min (max n 1) 25) ∧
      1 ≤ min (max n 1) 25 ∧ min (max n 1) 25 ≤ 25) ∧
    (q = none → effectiveLimit q = some 10) ∧
    (jsParseInt (jsOr q "10") = none →
      effectiveLimit q = none ∧
      ∀ len : Nat, lenGE len (effectiveLimit q) = false) := by
  refine ⟨?_, ?_, ?_⟩
  · intro n hn
    exact ⟨by simp [effectiveLimit, jsMax, jsMin, hn], by omega, by omega⟩
  · rintro rfl
    decide
  · intro hn
    have he : effectiveLimit q = none := by
      simp [effectiveLimit, jsMax, jsMin, hn]
    exact ⟨he, fun len => by rw [he]; rfl⟩

/-- Witness for C2 amended: the value one hundred is clamped to twenty five. -/
theorem C2_effective_limit_witness :
    effectiveLimit (some "100") = some 25 := by
  rw [((C2_effective_limit (some "100")).1 100 (by decide)).1]
  decide

/-! C8: depth validation. -/

/-- A request whose depth parameter is present and empty. -/
def reqEmptyDepth : Req := ⟨"GET", some "relay-secret", some "fileA", some "", none⟩

/-- Counterexample to C8: the depth parameter present as the empty string is
not one of the strings 1, 2, 3, yet the handler does not respond 400: the
empty value is falsy, silently defaults to depth 1, and the request proceeds
to a 200 after an upstream file fetch. -/
theorem C8_counterexample :
    (handler envW reqEmptyDepth [] 0 frOkW nrW).status = 200 ∧
    ¬ (handler envW reqEmptyDepth [] 0 frOkW nrW).status = 400 ∧
    (handler envW reqEmptyDepth [] 0 frOkW nrW).fileFetches = 1 := by
  exact ⟨by decide, by decide, by decide⟩

/-- C8 amended: when the depth parameter is present with a nonempty value
outside the strings 1, 2, 3, an authorized GET request is answered 400
before any upstream call; an absent or empty depth parameter instead
silently defaults to depth 1. -/
theorem C8_depth_validation :
    (∀ (env : Env) (req : Req) (c : Cache) (now : Nat) (fr : FileFetchResult)
        (nr : NodesFetchResult) (s : String),
      req.method = "GET" → authFail env req = false →
      req.depth = some s → s ≠ "" → depthValid s = false →
      (handler env req c now fr nr).status = 400 ∧
      (handler env req c now fr nr).fileFetches = 0) ∧
    (∀ req : Req, req.depth = none ∨ req.depth = some "" → depthOf req = "1") := by
  constructor
  · intro env req c now fr nr s hm ha hd hs hdv
    have hdepth : depthOf req = s := by
      simp [depthOf, jsOr, hd, hs]
    unfold handler
    by_cases hfk : jsTruthy req.file_key = true
    · simp [hm, ha, hfk, hdepth, hdv]
    · simp [hm, ha, hfk]
  · intro req h
    rcases h with h | h <;> simp [depthOf, jsOr, h]

/-- Witness for C8 amended: depth 9 is rejected with a 400. -/
theorem C8_depth_validation_witness :
    (handler envW ⟨"GET", some "relay-secret", some "fileA", some "9", none⟩
      [] 0 frOkW nrW).status = 400 :=
  (C8_depth_validation.1 envW ⟨"GET", some "relay-secret", some "fileA", some "9", none⟩
    [] 0 frOkW nrW "9" rfl (by decide) rfl (by decide) (by decide)).1

/-! Helper lemmas for the miss path of the handler. -/

/-- The payload the success path composes, written without lets. -/
def payloadOf (fileKey : String) (limit : Option Int) (fj : FileJson)
    (nr : NodesFetchResult) : Payload :=
  ⟨fileKey, jsOr fj.name "", jsOr fj.lastModified "",
    pickTopScreens fj limit,
    (fetchNodes (idsOf (pickTopScreens fj limit)) nr).1⟩

theorem successPath_eq (fileKey : String) (limit : Option Int) (ckey : String)
    (c : Cache) (now : Nat) (fj : FileJson) (nr : NodesFetchResult) :
    successPath fileKey limit ckey c now fj nr =
      ⟨200, .success (payloadOf fileKey limit fj nr) "miss_set",
        setCache c ckey (payloadOf fileKey limit fj nr) now, 1,
        (fetchNodes (idsOf (pickTopScreens fj limit)) nr).2⟩ := rfl

theorem handleMiss_success (fileKey : String) (limit : Option Int)
    (ckey : String) (c : Cache) (now : Nat) (fr : FileFetchResult)
    (nr : NodesFetchResult) (fj : FileJson)
    (hok : respOk fr.status = true) (hjson : fr.json = some fj) :
    handleMiss fileKey limit ckey c now fr nr =
      successPath fileKey limit ckey c now fj nr := by
  have h429 : (fr.status == 429) = false := by
    simp only [respOk, Bool.and_eq_true, decide_eq_true_eq] at hok
    simp only [beq_eq_false_iff_ne, ne_eq]
    omega
  unfold handleMiss
  rw [if_neg (by simp [h429])]
  simp only [hjson, hok, if_true]

theorem fetchNodes_fail (ids : String) (nr : NodesFetchResult)
    (hids : (ids == "") = false)
    (hfail : nr.status = 429 ∨ respOk nr.status = false ∨ nr.json = none) :
    fetchNodes ids nr = ([], 1) := by
  unfold fetchNodes
  rw [if_neg (by simp [hids] : ¬ (ids == "") = true)]
  by_cases h429 : (nr.status == 429) = true
  · rw [if_pos h429]
  · rw [if_neg h429]
    cases hj : nr.json with
    | none => rfl
    | some nj =>
      have hok : respOk nr.status = false := by
        rcases hfail with h | h | h
        · exact absurd (by simp [h]) h429
        · exact h
        · rw [hj] at h
          exact absurd h (by simp)
      simp only [hok, Bool.false_eq_true, if_false]

theorem getCache_snd_mem (c : Cache) (k : String) (now : Nat) :
    ∀ kv, kv ∈ (getCache c k now).2 → kv ∈ c := by
  intro kv h
  unfold getCache at h
  cases hg : mapGet c k with
  | none =>
    simp only [hg] at h
    exact h
  | some e =>
    simp only [hg] at h
    by_cases ht : now - e.ts > TTL_MS
    · rw [if_pos ht] at h
      exact (List.mem_filter.mp h).1
    · rw [if_neg ht] at h
      exact h

/-- C3: for any request that passes authorization and validation and misses
the cache, when the file fetch succeeds (2xx with parsed JSON) and screens
were selected but the node fetch fails in any way (status 429, any other non
2xx status, or a body that did not parse), the handler still responds 200,
under the miss_set marker, with the nodes field equal to the empty mapping,
the node fetch having actually been performed. -/
theorem C3_node_fetch_degradation (env : Env) (req : Req) (c : Cache)
    (now : Nat) (fr : FileFetchResult) (nr : NodesFetchResult) (fj : FileJson)
    (hm : req.method = "GET") (ha : authFail env req = false)
    (hfk : jsTruthy req.file_key = true)
    (hd : depthValid (depthOf req) = true)
    (hp : jsTruthy env.figmaPat = true)
    (hmiss : (getCache c (reqCkey req) now).1 = none)
    (hok : respOk fr.status = true) (hjson : fr.json = some fj)
    (hids : idsOf (pickTopScreens fj (effectiveLimit req.limit)) ≠ "")
    (hfail : nr.status = 429 ∨ respOk nr.status = false ∨ nr.json = none) :
    (handler env req c now fr nr).status = 200 ∧
    (handler env req c now fr nr).nodeFetches = 1 ∧
    ∃ p : Payload,
      (handler env req c now fr nr).body = .success p "miss_set" ∧
      p.nodes = [] := by
  rw [handler_eq_of_valid env req c now fr nr hm ha hfk hd hp]
  rcases hget : getCache c (reqCkey req) now with ⟨v, c1⟩
  rw [hget] at hmiss
  simp only at hmiss
  subst hmiss
  simp only
  rw [handleMiss_success (fkOf req) (effectiveLimit req.limit) (reqCkey req)
    c1 now fr nr fj hok hjson, successPath_eq,
    fetchNodes_fail _ nr (by simpa using hids) hfail]
  exact ⟨rfl, rfl, payloadOf (fkOf req) (effectiveLimit req.limit) fj nr, rfl,
    by simp [payloadOf, fetchNodes_fail _ nr (by simpa using hids) hfail]⟩

/-- Witness for C3: the example document selects five screens, the node
fetch answers 429, and the response is a 200 with empty nodes. -/
theorem C3_node_fetch_degradation_witness :
    (handler envW reqW [] 0 ⟨200, some exampleDoc, ""⟩ ⟨429, none⟩).status = 200 ∧
    (handler envW reqW [] 0 ⟨200, some exampleDoc, ""⟩ ⟨429, none⟩).nodeFetches = 1 ∧
    ∃ p : Payload,
      (handler envW reqW [] 0 ⟨200, some exampleDoc, ""⟩ ⟨429, none⟩).body =
        .success p "miss_set" ∧ p.nodes = [] :=
  C3_node_fetch_degradation envW reqW [] 0 ⟨200, some exampleDoc, ""⟩
    ⟨429, none⟩ exampleDoc rfl (by decide) (by decide) (by decide) (by decide)
    (by decide) (by decide) rfl (by decide) (Or.inl rfl)

/-- C4: for any authorized, validated request that misses the cache and
whose file fetch returns 429: when the scan over the cache (as it stands
after the miss lookup) finds a first entry, in Map iteration order, whose
key starts with the file key followed by a bar and whose age is within the
TTL, the handler responds 200 with that entry payload under the
fallback_on_429 marker; when no such entry exists the handler responds 429
with the rate limit error body and stores nothing: every entry of the
resulting cache was already present before the request. -/
theorem C4_rate_limit_fallback (env : Env) (req : Req) (c : Cache)
    (now : Nat) (fr : FileFetchResult) (nr : NodesFetchResult)
    (hm : req.method = "GET") (ha : authFail env req = false)
    (hfk : jsTruthy req.file_key = true)
    (hd : depthValid (depthOf req) = true)
    (hp : jsTruthy env.figmaPat = true)
    (hmiss : (getCache c (reqCkey req) now).1 = none)
    (h429 : fr.status = 429) :
    (∀ v : Payload,
      scanFallback (getCache c (reqCkey req) now).2 (fkOf req) now = some v →
      (handler env req c now fr nr).status = 200 ∧
      (handler env req c now fr nr).body = .success v "fallback_on_429") ∧
    (scanFallback (getCache c (reqCkey req) now).2 (fkOf req) now = none →
      (handler env req c now fr nr).status = 429 ∧
      (handler env req c now fr nr).body =
        .err "Figma rate limited (429) and no cache available yet. Retry in a few minutes." ∧
      ∀ kv, kv ∈ (handler env req c now fr nr).cache → kv ∈ c) := by
  rw [handler_eq_of_valid env req c now fr nr hm ha hfk hd hp]
  have hmem := getCache_snd_mem c (reqCkey req) now
  rcases hget : getCache c (reqCkey req) now with ⟨v0, c1⟩
  rw [hget] at hmiss hmem
  simp only at hmiss
  subst hmiss
  simp only
  unfold handleMiss
  rw [if_pos (by simp [h429] : (fr.status == 429) = true)]
  constructor
  · intro v hscan
    simp only [hscan]
    exact ⟨by trivial, by trivial⟩
  · intro hscan
    simp only [hscan]
    exact ⟨by trivial, by trivial, hmem⟩

/-- A cache holding a still valid entry for fileA stored under a different
depth and limit than the witness request asks for. -/
def cFallbackW : Cache := [("fileA|d=2|l=5", ⟨0, pW⟩)]

/-- Witness for C4: a 429 on the file fetch is served from the cached entry
of the same file under another depth and limit, with the fallback marker. -/
theorem C4_rate_limit_fallback_witness :
    (handler envW reqW cFallbackW 3 ⟨429, none, ""⟩ nrW).status = 200 ∧
    (handler envW reqW cFallbackW 3 ⟨429, none, ""⟩ nrW).body =
      .success pW "fallback_on_429" :=
  (C4_rate_limit_fallback envW reqW cFallbackW 3 ⟨429, none, ""⟩ nrW rfl
    (by decide) (by decide) (by decide) (by decide) (by decide) rfl).1 pW
    (by decide)

/-- C6: two identical requests within the TTL of one another, the first a
cache miss whose file fetch succeeds: the first responds 200 with the
miss_set marker and performs the one file fetch; the second responds 200
with the very same payload under the hit marker and performs no upstream
fetch at all. -/
theorem C6_cache_idempotence (env : Env) (req : Req) (c : Cache)
    (now1 now2 : Nat) (fr1 : FileFetchResult) (nr1 : NodesFetchResult)
    (fr2 : FileFetchResult) (nr2 : NodesFetchResult) (fj : FileJson)
    (hm : req.method = "GET") (ha : authFail env req = false)
    (hfk : jsTruthy req.file_key = true)
    (hd : depthValid (depthOf req) = true)
    (hp : jsTruthy env.figmaPat = true)
    (hmiss : (getCache c (reqCkey req) now1).1 = none)
    (hok : respOk fr1.status = true) (hjson : fr1.json = some fj)
    (httl : now2 - now1 ≤ TTL_MS) :
    ∃ p : Payload,
      (handler env req c now1 fr1 nr1).status = 200 ∧
      (handler env req c now1 fr1 nr1).body = .success p "miss_set" ∧
      (handler env req c now1 fr1 nr1).fileFetches = 1 ∧
      (handler env req (handler env req c now1 fr1 nr1).cache now2 fr2 nr2).status = 200 ∧
      (handler env req (handler env req c now1 fr1 nr1).cache now2 fr2 nr2).body = .success p "hit" ∧
      (handler env req (handler env req c now1 fr1 nr1).cache now2 fr2 nr2).fileFetches = 0 ∧
      (handler env req (handler env req c now1 fr1 nr1).cache now2 fr2 nr2).nodeFetches = 0 := by
  rcases hget : getCache c (reqCkey req) now1 with ⟨v0, c1⟩
  rw [hget] at hmiss
  simp only at hmiss
  subst hmiss
  have h1 : handler env req c now1 fr1 nr1 =
      ⟨200, .success (payloadOf (fkOf req) (effectiveLimit req.limit) fj nr1) "miss_set",
        setCache c1 (reqCkey req)
          (payloadOf (fkOf req) (effectiveLimit req.limit) fj nr1) now1, 1,
        (fetchNodes (idsOf (pickTopScreens fj (effectiveLimit req.limit))) nr1).2⟩ := by
    rw [handler_eq_of_valid env req c now1 fr1 nr1 hm ha hfk hd hp, hget]
    show handleMiss (fkOf req) (effectiveLimit req.limit) (reqCkey req)
      c1 now1 fr1 nr1 = _
    rw [handleMiss_success _ _ _ _ _ _ _ fj hok hjson, successPath_eq]
  have hg2 : getCache (setCache c1 (reqCkey req)
      (payloadOf (fkOf req) (effectiveLimit req.limit) fj nr1) now1)
      (reqCkey req) now2 =
      (some (payloadOf (fkOf req) (effectiveLimit req.limit) fj nr1),
        setCache c1 (reqCkey req)
          (payloadOf (fkOf req) (effectiveLimit req.limit) fj nr1) now1) := by
    unfold getCache
    simp only [setCache, mapGet_mapSet_self]
    rw [if_neg (show ¬ now2 - now1 > TTL_MS by omega)]
  have h2 : handler env req (setCache c1 (reqCkey req)
      (payloadOf (fkOf req) (effectiveLimit req.limit) fj nr1) now1) now2 fr2 nr2 =
      ⟨200, .success (payloadOf (fkOf req) (effectiveLimit req.limit) fj nr1) "hit",
        setCache c1 (reqCkey req)
          (payloadOf (fkOf req) (effectiveLimit req.limit) fj nr1) now1, 0, 0⟩ := by
    rw [handler_eq_of_valid env req _ now2 fr2 nr2 hm ha hfk hd hp]
    simp only [hg2]
  refine ⟨payloadOf (fkOf req) (effectiveLimit req.limit) fj nr1,
    ?_, ?_, ?_, ?_, ?_, ?_, ?_⟩ <;> simp [h1, h2]

/-- Witness for C6: two identical requests five milliseconds apart, the
first one a miss served upstream, the second served from the cache. -/
theorem C6_cache_idempotence_witness :
    ∃ p : Payload,
      (handler envW reqW [] 0 frOkW nrW).status = 200 ∧
      (handler envW reqW [] 0 frOkW nrW).body = .success p "miss_set" ∧
      (handler envW reqW [] 0 frOkW nrW).fileFetches = 1 ∧
      (handler envW reqW (handler envW reqW [] 0 frOkW nrW).cache 5
        ⟨500, none, ""⟩ nrW).status = 200 ∧
      (handler envW reqW (handler envW reqW [] 0 frOkW nrW).cache 5
        ⟨500, none, ""⟩ nrW).body = .success p "hit" ∧
      (handler envW reqW (handler envW reqW [] 0 frOkW nrW).cache 5
        ⟨500, none, ""⟩ nrW).fileFetches = 0 ∧
      (handler envW reqW (handler envW reqW [] 0 frOkW nrW).cache 5
        ⟨500, none, ""⟩ nrW).nodeFetches = 0 :=
  C6_cache_idempotence envW reqW [] 0 5 frOkW nrW ⟨500, none, ""⟩ nrW fjW
    rfl (by decide) (by decide) (by decide) (by decide) (by decide) (by decide)
    rfl (by decide)

/-- C9: whenever an authorized, validated request completes fully
successfully, that is, it is served from the cache, or from the rate limit
fallback scan, or its file fetch succeeded with parsed JSON, the handler
responds 200 and the body is the payload envelope, whose fields are exactly
file_key, file_name, last_modified, screens and nodes, together with a
_cache marker that is one of hit, fallback_on_429 and miss_set. -/
theorem C9_response_envelope (env : Env) (req : Req) (c : Cache) (now : Nat)
    (fr : FileFetchResult) (nr : NodesFetchResult)
    (hm : req.method = "GET") (ha : authFail env req = false)
    (hfk : jsTruthy req.file_key = true)
    (hd : depthValid (depthOf req) = true)
    (hp : jsTruthy env.figmaPat = true)
    (hfull : (∃ p, (getCache c (reqCkey req) now).1 = some p) ∨
      ((getCache c (reqCkey req) now).1 = none ∧ fr.status = 429 ∧
        ∃ v, scanFallback (getCache c (reqCkey req) now).2 (fkOf req) now = some v) ∨
      ((getCache c (reqCkey req) now).1 = none ∧ respOk fr.status = true ∧
        ∃ fj, fr.json = some fj)) :
    (handler env req c now fr nr).status = 200 ∧
    ∃ (p : Payload) (m : String),
      (handler env req c now fr nr).body = .success p m ∧
      (m = "hit" ∨ m = "fallback_on_429" ∨ m = "miss_set") := by
  rw [handler_eq_of_valid env req c now fr nr hm ha hfk hd hp]
  rcases hget : getCache c (reqCkey req) now with ⟨v0, c1⟩
  rw [hget] at hfull
  simp only at hfull
  rcases hfull with ⟨p, hp1⟩ | ⟨h0, h429, v, hscan⟩ | ⟨h0, hok, fj, hjson⟩
  · subst hp1
    exact ⟨rfl, p, "hit", rfl, Or.inl rfl⟩
  · subst h0
    simp only
    unfold handleMiss
    rw [if_pos (by simp [h429] : (fr.status == 429) = true)]
    simp only [hscan]
    exact ⟨by trivial, v, "fallback_on_429", by trivial, Or.inr (Or.inl rfl)⟩
  · subst h0
    simp only
    rw [handleMiss_success _ _ _ _ _ _ _ fj hok hjson, successPath_eq]
    exact ⟨rfl, payloadOf (fkOf req) (effectiveLimit req.limit) fj nr,
      "miss_set", rfl, Or.inr (Or.inr rfl)⟩

/-- Witness for C9: a cache hit yields a 200 carrying the envelope with the
hit marker. -/
theorem C9_response_envelope_witness :
    (handler envW reqW cW 5 frOkW nrW).status = 200 ∧
    ∃ (p : Payload) (m : String),
      (handler envW reqW cW 5 frOkW nrW).body = .success p m ∧
      (m = "hit" ∨ m = "fallback_on_429" ∨ m = "miss_set") :=
  C9_response_envelope envW reqW cW 5 frOkW nrW rfl (by decide) (by decide)
    (by decide) (by decide) (Or.inl ⟨pW, by decide⟩)

/-! C10: the cache key prefix collision between distinct file keys. -/

/-- A request for the file key fileA with a bar in it, namely fileA|d=1. -/
def reqPrime : Req := ⟨"GET", some "relay-secret", some "fileA|d=1", none, none⟩

/-- First run: a successful request for file fileA|d=1 populates the cache
under the key fileA|d=1|d=1|l=10. -/
def r1C10 : HandlerResult := handler envW reqPrime [] 0 ⟨200, some fjW, ""⟩ nrW

/-- Second run: a request for the distinct file fileA hits a 429 on the file
fetch and scans the cache by the bare prefix fileA followed by a bar. -/
def r2C10 : HandlerResult := handler envW reqW r1C10.cache 1 ⟨429, none, ""⟩ nrW

/-- C10: because cache keys are built by string concatenation and the rate
limit fallback matches any key by the string prefix file_key plus bar, the
two distinct file keys fileA and fileA|d=1 collide: the 429 fallback for
fileA answers 200 with the payload that was cached for fileA|d=1. -/
theorem C10_prefix_collision :
    r2C10.status = 200 ∧
    r2C10.body = .success ⟨"fileA|d=1", "DocA", "2024-01-01", [], []⟩
      "fallback_on_429" ∧
    reqW.file_key = some "fileA" ∧ reqPrime.file_key = some "fileA|d=1" ∧
    ("fileA" : String) ≠ "fileA|d=1" :=
  ⟨rfl, rfl, rfl, rfl, by decide⟩

end FigmaRelay
